import Mathlib

/-!
Verification of the unicorn2xx streaming pipeline (src/unicorn2audio.c).

Floats are modelled as exact rationals (`ℚ`), machine integers as `Nat`/`Int`
with explicit masking where the C code truncates.  Buffers are modelled by
their logical contents (a flat `List ℚ`) together with the `frames` counter,
mirroring the C `dataBuffer_t`.  The libsamplerate resampler and the audio
host are external capabilities: their results enter the model as parameters
constrained by their documented contracts.
-/

/- ================= Frame decoder (unicorn_pull_sample, lines 545-579) ================= -/

/-- One EEG channel's raw integer, lines 557-560 of unicorn2audio.c:
`val = buf[3+ch*3] << 16 | buf[4+ch*3] << 8 | buf[5+ch*3]`, then
`if (val & 0x00800000) val = val | 0xFF000000`.  `val` is C `unsigned long`,
so the value stays a nonnegative integer; no truncation occurs. -/
def eegRaw (b : Nat → Nat) (ch : Nat) : Nat :=
  let v := (b (3 + ch * 3)) <<< 16 ||| (b (4 + ch * 3)) <<< 8 ||| (b (5 + ch * 3))
  if v &&& 0x00800000 ≠ 0 then v ||| 0xFF000000 else v

/-- `dat[ch] = (float)val * 4500000. / 50331642.` (line 561).  The conversion
`(float)val` of the C `unsigned long` is value-preserving and nonnegative. -/
def eegVal (b : Nat → Nat) (ch : Nat) : ℚ :=
  (eegRaw b ch : ℚ) * 4500000 / 50331642

/-- Little-endian signed 16-bit read:
`short val = (short)buf[lo] | (short)buf[hi] << 8` (lines 565 and 570).
The assignment to `short` reduces mod 2^16 and reinterprets as two's
complement. -/
def s16 (lo hi : Nat) : ℤ :=
  let u := (lo ||| (hi <<< 8)) % 65536
  if u < 32768 then (u : ℤ) else (u : ℤ) - 65536

/-- `dat[8+ch] = (float)val / 4096.` (line 566). -/
def accelVal (b : Nat → Nat) (ch : Nat) : ℚ :=
  (s16 (b (27 + ch * 2)) (b (28 + ch * 2)) : ℚ) / 4096

/-- `dat[11+ch] = (float)val / 32.8` (line 571). -/
def gyroVal (b : Nat → Nat) (ch : Nat) : ℚ :=
  (s16 (b (33 + ch * 2)) (b (34 + ch * 2)) : ℚ) / (328 / 10)

/-- `battery = (buf[2] & 0x0F) * 100. / 15.` (line 553). -/
def batteryVal (b : Nat → Nat) : ℚ :=
  ((b 2 &&& 0x0F : Nat) : ℚ) * 100 / 15

/-- `counter = buf[39] | buf[40] << 8 | buf[41] << 16 | buf[42] << 24` (line 554). -/
def counterVal (b : Nat → Nat) : Nat :=
  (b 39) ||| ((b 40) <<< 8) ||| ((b 41) <<< 16) ||| ((b 42) <<< 24)

/-- The 16 decoded floats `dat[0..15]`, in the order written by
`unicorn_pull_sample`: 8 EEG, 3 accel, 3 gyro, battery, counter (the two
channel loops unrolled). -/
def decode (b : Nat → Nat) : List ℚ :=
  [eegVal b 0, eegVal b 1, eegVal b 2, eegVal b 3,
   eegVal b 4, eegVal b 5, eegVal b 6, eegVal b 7,
   accelVal b 0, accelVal b 1, accelVal b 2,
   gyroVal b 0, gyroVal b 1, gyroVal b 2,
   batteryVal b, counterVal b]

/-- `unicorn_pull_sample` (lines 545-579): `r` is the return value of
`sp_blocking_read(port, buf, 45, TIMEOUT)`, `b` the received bytes.  The
frame is rejected (`return 1`, modelled `none`) iff
`result != PACKETSIZE || buf[0] != 0xC0 || buf[1] != 0x00`; otherwise the
16 decoded values are produced. -/
def unicorn_pull_sample (r : ℤ) (b : Nat → Nat) : Option (List ℚ) :=
  if r ≠ 45 ∨ b 0 ≠ 0xC0 ∨ b 1 ≠ 0x00 then none else some (decode b)

/- ================= Example frames ================= -/

/-- A well-framed 45-byte packet whose EEG channel 0 bytes are `FF FF FF`
and all other payload bytes are zero. -/
def frameFFFFFF (i : Nat) : Nat :=
  if i = 0 then 0xC0 else if 3 ≤ i ∧ i ≤ 5 then 0xFF else 0

/-- A well-framed packet with all-zero payload and trailer bytes 0. -/
def frameZero (i : Nat) : Nat :=
  if i = 0 then 0xC0 else 0

/-- The same packet with the nominal trailer `0x0D 0x0A` at offsets 43, 44. -/
def frameZeroTrailer (i : Nat) : Nat :=
  if i = 0 then 0xC0 else if i = 43 then 0x0D else if i = 44 then 0x0A else 0

/- ================= DC-removal filter (lines 439-445 and 503-505) ================= -/

/-- `lambda = 0.0002772` (line 213): the smoothing coefficient of the
"10-second exponential decay at 250 Hz". -/
def lambdaQ : ℚ := 2772 / 10000000

/-- The `smooth` macro (line 61): `(1.0-lambda)*(old) + (lambda)*(new)`. -/
def smoothQ (old new lam : ℚ) : ℚ := (1 - lam) * old + lam * new

/-- One per-channel iteration of the filter loop (lines 444-445, 459-460,
504-505): `eegdata[i] -= smooth(eegfilt[i], eegdata[i], lambda)`.  The first
component is the filter state `eegfilt[i]` after the iteration — the C loop
body assigns only `eegdata[i]`, so the state passes through unchanged. -/
def filter_step (f x : ℚ) : ℚ × ℚ :=
  (f, x - smoothQ f x lambdaQ)

/-- The filter applied to a whole post-warmup channel trace, threading the
`eegfilt[i]` state through `filter_step`.  `f` is the initial state set at
lines 440-441 (`eegfilt[i] = eegdata[i]`, the first post-warmup sample).
Returns the final state and the emitted values. -/
def filter_run (f : ℚ) : List ℚ → ℚ × List ℚ
  | [] => (f, [])
  | x :: xs =>
    let s := filter_step f x
    let r := filter_run s.1 xs
    (r.1, s.2 :: r.2)

/-- Modelled from the spec (§4.3), for comparison with `filter_run`:
`baselineₙ = (1 − λ)·baselineₙ₋₁ + λ·xₙ` and `yₙ = xₙ − baselineₙ`, the
baseline state being stored back each sample. -/
def spec_filter_run (f : ℚ) : List ℚ → ℚ × List ℚ
  | [] => (f, [])
  | x :: xs =>
    let f1 := smoothQ f x lambdaQ
    let r := spec_filter_run f1 xs
    (r.1, (x - f1) :: r.2)

/- ================= Ring buffers and producer (lines 83-97, 462-467, 507-512) ================= -/

/-- `dataBuffer_t` (lines 83-86): the logical contents (the first
`frames * channelCount` floats of the flat array) and the frame counter. -/
structure DataBuffer where
  data : List ℚ
  frames : Nat
  deriving DecidableEq

/-- The auto-scaler store loop (lines 463-466 in the priming loop, identical
at lines 508-511 in the running loop): for each channel value `x`,
`outputLimit = max(outputLimit, fabsf(x))` and then `x / outputLimit` is
stored.  Returns the updated `outputLimit` and the stored frame. -/
def store_channels (limit : ℚ) : List ℚ → ℚ × List ℚ
  | [] => (limit, [])
  | x :: xs =>
    let l1 := max limit |x|
    let r := store_channels l1 xs
    (r.1, x / l1 :: r.2)

/-- Producer-side state touched by one running-loop iteration. -/
structure ProducerState where
  inp : DataBuffer
  limit : ℚ
  deriving DecidableEq

/-- One iteration of the producer loops (lines 462-467 and 507-512) after
filtering: the frame is stored at index `frames * channelCount` and
`inputData.frames++` — the code performs no bound check against
`inputBufsize`. -/
def pull_step (xs : List ℚ) (s : ProducerState) : ProducerState :=
  let r := store_channels s.limit xs
  ⟨⟨s.inp.data ++ r.2, s.inp.frames + 1⟩, r.1⟩

/- ================= resample_buffers (lines 100-133) ================= -/

/-- `resample_buffers`: returns unchanged buffers when the input buffer is
empty (line 109) or the output buffer is full (line 113); otherwise
`src_process` consumes `inUsed` input frames producing `prod`
(`outProduced` frames of floats) at the output tail, the output counter
grows by `outProduced` (line 125) and the input buffer is compacted by
dropping its first `inUsed` frames (lines 128-130).  `inUsed`, `outProduced`
and `prod` are the results of the external `src_process` capability; no
other pipeline state is touched. -/
def resample_buffers (outputBufsize cc inUsed outProduced : Nat) (prod : List ℚ)
    (inp out : DataBuffer) : DataBuffer × DataBuffer :=
  if inp.frames = 0 then (inp, out)
  else if out.frames = outputBufsize then (inp, out)
  else (⟨inp.data.drop (inUsed * cc), inp.frames - inUsed⟩,
        ⟨out.data ++ prod, out.frames + outProduced⟩)

/- ================= update_ratio (lines 136-167) ================= -/

/-- `BLOCKSIZE` (line 64): 0.01 seconds. -/
def BLOCKSIZE : ℚ := 1 / 100

/-- `update_ratio` (lines 136-167).  `frames` is `outputData.frames` at the
tick; the function returns the new `resampleRatio`.  Note the branch order
of the source: `frames > high` is tested before `frames > veryhigh`. -/
def update_ratio (outputRate inputRate : ℚ) (outputBufsize outputBlocksize : Nat)
    (frames : Nat) (ratio : ℚ) : ℚ :=
  let nominal := outputRate / inputRate
  let estimate0 := nominal + ((1 / 2 : ℚ) * outputBufsize - frames) / outputBlocksize
  let estimate1 := min estimate0 (12 / 10 * nominal)
  let estimate := max estimate1 (8 / 10 * nominal)
  let verylow : ℚ := 40 / 100 * outputBufsize
  let low : ℚ := 48 / 100 * outputBufsize
  let high : ℚ := 52 / 100 * outputBufsize
  let veryhigh : ℚ := 60 / 100 * outputBufsize
  if (frames : ℚ) < verylow then smoothQ ratio estimate (10 * BLOCKSIZE)
  else if (frames : ℚ) < low then smoothQ ratio estimate (1 * BLOCKSIZE)
  else if high < (frames : ℚ) then smoothQ ratio estimate (1 * BLOCKSIZE)
  else if veryhigh < (frames : ℚ) then smoothQ ratio estimate (10 * BLOCKSIZE)
  else smoothQ ratio nominal (10 * BLOCKSIZE)

/- ================= output_callback (lines 170-202) ================= -/

/-- PortAudio's continue status, returned at line 201. -/
def paContinue : Nat := 0

/-- The values produced by one `output_callback` invocation. -/
structure CallbackResult where
  dest : List ℚ
  inp : DataBuffer
  out : DataBuffer
  limit : ℚ
  ratio : ℚ
  status : Nat
  deriving DecidableEq

/-- `output_callback` (lines 170-202): copy `newFrames = min(frameCount,
frames)` frames to the destination, zero the remaining `frameCount -
newFrames` destination frames, compact the output buffer, fold the emitted
samples into `outputLimit`, then run `resample_buffers` and `update_ratio`
when enabled, and return `paContinue`.  The `src_process` outcome enters as
`inUsed`, `outProduced`, `prod`. -/
def output_callback (cc frameCount : Nat) (enableResample enableUpdate : Bool)
    (outputBufsize outputBlocksize : Nat) (outputRate inputRate : ℚ)
    (inUsed outProduced : Nat) (prod : List ℚ)
    (inp out : DataBuffer) (limit ratio : ℚ) : CallbackResult :=
  let newFrames := min frameCount out.frames
  let dest := out.data.take (newFrames * cc) ++ List.replicate ((frameCount - newFrames) * cc) (0 : ℚ)
  let out1 : DataBuffer := ⟨out.data.drop (newFrames * cc), out.frames - newFrames⟩
  let limit1 := (out.data.take (newFrames * cc)).foldl (fun l x => max l |x|) limit
  let bufs := if enableResample
    then resample_buffers outputBufsize cc inUsed outProduced prod inp out1
    else (inp, out1)
  let ratio1 := if enableUpdate
    then update_ratio outputRate inputRate outputBufsize outputBlocksize bufs.2.frames ratio
    else ratio
  ⟨dest, bufs.1, bufs.2, limit1, ratio1, paContinue⟩

/- ================= outputLimit session model ================= -/

/-- The two kinds of `outputLimit` update sites: a producer-loop frame store
(lines 463-466 / 508-511) and an audio-callback drain over the emitted
samples (lines 192-193). -/
inductive LimitEvent where
  | pull (xs : List ℚ)
  | callback (ds : List ℚ)
  deriving DecidableEq

/-- Effect of one event on `outputLimit`: both sites perform
`outputLimit = max(outputLimit, fabsf(sample))` over their samples. -/
def limit_step (l : ℚ) : LimitEvent → ℚ
  | .pull xs => (store_channels l xs).1
  | .callback ds => ds.foldl (fun a x => max a |x|) l

/-- `outputLimit` over a whole session: initialised to `1.` (line 97), then
updated by every producer store and callback drain in order. -/
def session_limit (evs : List LimitEvent) : ℚ :=
  evs.foldl limit_step 1

/- ================= Concrete scenario constants ================= -/

/-- `inputBufsize` for a small concrete run: 4 frames. -/
def exInputBufsize : Nat := 4

/-- Producer state right after priming with `exInputBufsize = 4` and one
channel: the input buffer holds `inputBufsize/2 = 2` frames,
`outputLimit = 1`. -/
def exPrimed : ProducerState := ⟨⟨[0, 0], 2⟩, 1⟩

/- ================= Helper lemmas ================= -/

lemma eegRaw_agree {b b' : Nat → Nat} (h : ∀ i : Nat, i ≤ 42 → b i = b' i)
    {ch : Nat} (hch : ch < 8) : eegRaw b ch = eegRaw b' ch := by
  unfold eegRaw
  rw [h (3 + ch * 3) (by omega), h (4 + ch * 3) (by omega), h (5 + ch * 3) (by omega)]

lemma accelVal_agree {b b' : Nat → Nat} (h : ∀ i : Nat, i ≤ 42 → b i = b' i)
    {ch : Nat} (hch : ch < 3) : accelVal b ch = accelVal b' ch := by
  unfold accelVal
  rw [h (27 + ch * 2) (by omega), h (28 + ch * 2) (by omega)]

lemma gyroVal_agree {b b' : Nat → Nat} (h : ∀ i : Nat, i ≤ 42 → b i = b' i)
    {ch : Nat} (hch : ch < 3) : gyroVal b ch = gyroVal b' ch := by
  unfold gyroVal
  rw [h (33 + ch * 2) (by omega), h (34 + ch * 2) (by omega)]

lemma decode_agree {b b' : Nat → Nat} (h : ∀ i : Nat, i ≤ 42 → b i = b' i) :
    decode b = decode b' := by
  unfold decode eegVal batteryVal counterVal
  rw [eegRaw_agree h (by omega : (0:Nat) < 8), eegRaw_agree h (by omega : (1:Nat) < 8),
      eegRaw_agree h (by omega : (2:Nat) < 8), eegRaw_agree h (by omega : (3:Nat) < 8),
      eegRaw_agree h (by omega : (4:Nat) < 8), eegRaw_agree h (by omega : (5:Nat) < 8),
      eegRaw_agree h (by omega : (6:Nat) < 8), eegRaw_agree h (by omega : (7:Nat) < 8),
      accelVal_agree h (by omega : (0:Nat) < 3), accelVal_agree h (by omega : (1:Nat) < 3),
      accelVal_agree h (by omega : (2:Nat) < 3),
      gyroVal_agree h (by omega : (0:Nat) < 3), gyroVal_agree h (by omega : (1:Nat) < 3),
      gyroVal_agree h (by omega : (2:Nat) < 3),
      h 2 (by omega), h 39 (by omega), h 40 (by omega), h 41 (by omega), h 42 (by omega)]

lemma le_store_channels_fst (limit : ℚ) (xs : List ℚ) :
    limit ≤ (store_channels limit xs).1 := by
  induction xs generalizing limit with
  | nil => exact le_refl _
  | cons x xs ih =>
    simp only [store_channels]
    exact le_trans (le_max_left limit |x|) (ih (max limit |x|))

lemma le_foldl_abs_max (l : ℚ) (ds : List ℚ) :
    l ≤ ds.foldl (fun a x => max a |x|) l := by
  induction ds generalizing l with
  | nil => exact le_refl _
  | cons d ds ih =>
    simp only [List.foldl_cons]
    exact le_trans (le_max_left l |d|) (ih (max l |d|))

lemma le_limit_step (l : ℚ) (e : LimitEvent) : l ≤ limit_step l e := by
  cases e with
  | pull xs => exact le_store_channels_fst l xs
  | callback ds => exact le_foldl_abs_max l ds

lemma le_foldl_limit_step (l : ℚ) (evs : List LimitEvent) :
    l ≤ evs.foldl limit_step l := by
  induction evs generalizing l with
  | nil => exact le_refl _
  | cons e es ih =>
    simp only [List.foldl_cons]
    exact le_trans (le_limit_step l e) (ih (limit_step l e))

lemma smoothQ_mem {a b r t l : ℚ} (hra : a ≤ r) (hrb : r ≤ b) (hta : a ≤ t)
    (htb : t ≤ b) (hl0 : 0 ≤ l) (hl1 : l ≤ 1) :
    a ≤ smoothQ r t l ∧ smoothQ r t l ≤ b := by
  unfold smoothQ
  constructor <;> nlinarith

lemma clamp_mem {n : ℚ} (e : ℚ) (hn : 0 ≤ n) :
    8 / 10 * n ≤ max (min e (12 / 10 * n)) (8 / 10 * n) ∧
    max (min e (12 / 10 * n)) (8 / 10 * n) ≤ 12 / 10 * n :=
  ⟨le_max_right _ _, max_le (le_trans (min_le_right _ _) (le_refl _)) (by linarith)⟩

lemma update_ratio_mem (outputRate inputRate : ℚ) (obuf oblock frames : Nat) (r : ℚ)
    (hn : 0 ≤ outputRate / inputRate)
    (h1 : 8 / 10 * (outputRate / inputRate) ≤ r)
    (h2 : r ≤ 12 / 10 * (outputRate / inputRate)) :
    8 / 10 * (outputRate / inputRate) ≤ update_ratio outputRate inputRate obuf oblock frames r ∧
    update_ratio outputRate inputRate obuf oblock frames r ≤ 12 / 10 * (outputRate / inputRate) := by
  have hc := clamp_mem
    (n := outputRate / inputRate)
    (outputRate / inputRate + ((1 / 2 : ℚ) * obuf - frames) / oblock) hn
  have hna : 8 / 10 * (outputRate / inputRate) ≤ outputRate / inputRate := by linarith
  have hnb : outputRate / inputRate ≤ 12 / 10 * (outputRate / inputRate) := by linarith
  simp only [update_ratio]
  split_ifs <;>
    first
      | exact smoothQ_mem h1 h2 hc.1 hc.2 (by norm_num [BLOCKSIZE]) (by norm_num [BLOCKSIZE])
      | exact smoothQ_mem h1 h2 hna hnb (by norm_num [BLOCKSIZE]) (by norm_num [BLOCKSIZE])

/- ================= Claim theorems ================= -/

/-- C1: the claim says bytes `FF FF FF` on EEG channel 0 decode through
sign extension to raw = −1 and a negative microvolt value ≈ −0.0894.  On
the code this fails: `val` is a C `unsigned long`, so after
`val |= 0xFF000000` the conversion `(float)val` yields the nonnegative
value 4294967295, and `dat[0] = 4294967295 * 4500000 / 50331642 ≈ +3.84e8`
is strictly positive. -/
theorem C1_unsigned_decode_bug :
    unicorn_pull_sample 45 frameFFFFFF = some (decode frameFFFFFF) ∧
    eegRaw frameFFFFFF 0 = 4294967295 ∧
    (decode frameFFFFFF).headI = (4294967295 : ℚ) * 4500000 / 50331642 ∧
    0 < (decode frameFFFFFF).headI := by
  have hraw : eegRaw frameFFFFFF 0 = 4294967295 := by decide
  refine ⟨rfl, hraw, ?_, ?_⟩
  · show eegVal frameFFFFFF 0 = _
    unfold eegVal
    rw [hraw]
    norm_num
  · show (0 : ℚ) < eegVal frameFFFFFF 0
    unfold eegVal
    rw [hraw]
    norm_num

/-- C2: the claim says the stored baseline follows the recurrence
`baselineₙ = (1−λ)·baselineₙ₋₁ + λ·xₙ` and changes whenever the input
changes.  On the code this fails: the loop `eegdata[i] -=
smooth(eegfilt[i], eegdata[i], lambda)` never assigns `eegfilt[i]`, so for
the post-warmup channel trace starting at baseline 0 with inputs
`[1000, 1000]` the stored baseline stays 0, while the claimed recurrence
moves it, and the emitted values differ from the second sample on. -/
theorem C2_frozen_baseline_bug :
    (filter_run 0 [1000, 1000]).1 = 0 ∧
    (spec_filter_run 0 [1000, 1000]).1 ≠ 0 ∧
    (filter_run 0 [1000, 1000]).2 ≠ (spec_filter_run 0 [1000, 1000]).2 := by
  refine ⟨rfl, ?_, ?_⟩
  · simp only [spec_filter_run, smoothQ, lambdaQ]
    norm_num
  · simp only [filter_run, filter_step, spec_filter_run, smoothQ, lambdaQ]
    norm_num

/-- C3: the claim says the input buffer frame count never exceeds
`inputBufsize` even when pulls occur without intervening callbacks.  On the
code this fails: the running loop stores each frame and increments
`inputData.frames` with no bound check, so with `inputBufsize = 4`, starting
from the primed fill of 2 frames, three pulls with no intervening callback
drive the counter to 5 > 4 (writing past the allocated buffer). -/
theorem C3_input_overflow_bug :
    (pull_step [0] (pull_step [0] (pull_step [0] exPrimed))).inp.frames = 5 ∧
    exInputBufsize < (pull_step [0] (pull_step [0] (pull_step [0] exPrimed))).inp.frames := by
  decide

/-- C4: the claim says a tick with fill > 0.60·capacity smooths toward the
clamped estimate with the fast coefficient `10 * BLOCKSIZE`.  On the code
this fails: the `outputData.frames > high` test (0.52·capacity) precedes
the `> veryhigh` test, so every fill above 0.60·capacity takes the slow
`1 * BLOCKSIZE` branch and the `> veryhigh` branch is unreachable.
Concretely: capacity 100, blocksize 10, rates 1000/250 (nominal 4), fill 61
> 60, current ratio 4; the clamped estimate is 16/5 and the code applies
the slow coefficient, which gives a different ratio than the fast one. -/
theorem C4_dead_fast_branch_bug :
    60 / 100 * ((100 : Nat) : ℚ) < ((61 : Nat) : ℚ) ∧
    update_ratio 1000 250 100 10 61 4 = smoothQ 4 (16 / 5) (1 * BLOCKSIZE) ∧
    smoothQ 4 (16 / 5) (1 * BLOCKSIZE) ≠ smoothQ 4 (16 / 5) (10 * BLOCKSIZE) := by
  refine ⟨by norm_num, ?_, by norm_num [smoothQ, BLOCKSIZE]⟩
  unfold update_ratio
  norm_num [min_def, max_def, smoothQ, BLOCKSIZE]

/-- C5: after `resampleRatio` is initialised to `nominal = outputRate /
inputRate` (line 470), every sequence of `update_ratio` ticks — one per
observed output-buffer fill level — keeps it within
`[0.8 * nominal, 1.2 * nominal]`: the estimate is clamped into that interval
(lines 141-142) and each branch forms a convex combination of the current
ratio with a target in the interval. -/
theorem C5_ratio_clamped (outputRate inputRate : ℚ) (obuf oblock : Nat)
    (fills : List Nat) (hn : 0 ≤ outputRate / inputRate) :
    8 / 10 * (outputRate / inputRate) ≤
      fills.foldl (fun r f => update_ratio outputRate inputRate obuf oblock f r)
        (outputRate / inputRate) ∧
    fills.foldl (fun r f => update_ratio outputRate inputRate obuf oblock f r)
        (outputRate / inputRate) ≤
      12 / 10 * (outputRate / inputRate) := by
  have key : ∀ (l : List Nat) (r : ℚ),
      8 / 10 * (outputRate / inputRate) ≤ r →
      r ≤ 12 / 10 * (outputRate / inputRate) →
      8 / 10 * (outputRate / inputRate) ≤
        l.foldl (fun r f => update_ratio outputRate inputRate obuf oblock f r) r ∧
      l.foldl (fun r f => update_ratio outputRate inputRate obuf oblock f r) r ≤
        12 / 10 * (outputRate / inputRate) := by
    intro l
    induction l with
    | nil => intro r h1 h2; exact ⟨h1, h2⟩
    | cons f fs ih =>
      intro r h1 h2
      have hm := update_ratio_mem outputRate inputRate obuf oblock f r hn h1 h2
      simpa only [List.foldl_cons] using ih _ hm.1 hm.2
  exact key fills _ (by linarith) (by linarith)

/-- C5 witness: concrete session at 44100 Hz, 2-second output buffer,
fills 10000, 44100, 60000. -/
theorem C5_ratio_clamped_witness :
    (0 : ℚ) ≤ 44100 / 250 ∧
    (8 / 10 * ((44100 : ℚ) / 250) ≤
      ([10000, 44100, 60000] : List Nat).foldl
        (fun r f => update_ratio 44100 250 88200 441 f r) ((44100 : ℚ) / 250) ∧
    ([10000, 44100, 60000] : List Nat).foldl
        (fun r f => update_ratio 44100 250 88200 441 f r) ((44100 : ℚ) / 250) ≤
      12 / 10 * ((44100 : ℚ) / 250)) :=
  ⟨by norm_num, C5_ratio_clamped 44100 250 88200 441 [10000, 44100, 60000] (by norm_num)⟩

/-- C6: `outputLimit` starts at 1 (line 97) and every update site — the
producer store loops (lines 463-466 / 508-511) and the callback fold
(lines 192-193) — replaces it by a maximum with the new sample magnitude,
so along any session it stays ≥ 1 and never decreases. -/
theorem C6_output_limit_monotone :
    (∀ evs : List LimitEvent, 1 ≤ session_limit evs) ∧
    (∀ evs more : List LimitEvent, session_limit evs ≤ session_limit (evs ++ more)) := by
  constructor
  · intro evs
    exact le_foldl_limit_step 1 evs
  · intro evs more
    unfold session_limit
    rw [List.foldl_append]
    exact le_foldl_limit_step _ more

/-- C7: with the resample/update flags off, the audio callback copies
`min(frameCount, frames)` output-buffer frames to the destination,
zero-fills exactly the remaining `frameCount - min(frameCount, frames)`
frames, leaves the fill at `frames - min(frameCount, frames)`, and returns
`paContinue` — underflow raises no error. -/
theorem C7_callback_underflow (cc frameCount : Nat)
    (outputBufsize outputBlocksize : Nat) (outputRate inputRate : ℚ)
    (inUsed outProduced : Nat) (prod : List ℚ) (inp out : DataBuffer)
    (limit ratio : ℚ) (r : CallbackResult)
    (hr : r = output_callback cc frameCount false false outputBufsize outputBlocksize
      outputRate inputRate inUsed outProduced prod inp out limit ratio)
    (h : out.data.length = out.frames * cc) :
    r.dest.take (min frameCount out.frames * cc) =
      out.data.take (min frameCount out.frames * cc) ∧
    r.dest.drop (min frameCount out.frames * cc) =
      List.replicate ((frameCount - min frameCount out.frames) * cc) 0 ∧
    r.dest.length = frameCount * cc ∧
    r.out.frames = out.frames - min frameCount out.frames ∧
    r.status = paContinue := by
  subst hr
  have hle : min frameCount out.frames * cc ≤ out.data.length := by
    rw [h]
    exact Nat.mul_le_mul_right cc (min_le_right frameCount out.frames)
  have hlenA : (out.data.take (min frameCount out.frames * cc)).length =
      min frameCount out.frames * cc := by
    rw [List.length_take]
    exact min_eq_left hle
  simp only [output_callback, Bool.false_eq_true, if_false]
  refine ⟨?_, ?_, ?_, by trivial, by trivial⟩
  · rw [List.take_append_eq_append_take, hlenA, Nat.sub_self, List.take_zero,
      List.append_nil, List.take_take, min_self]
  · rw [List.drop_append_eq_append_drop, hlenA, Nat.sub_self, List.drop_zero]
    rw [List.drop_eq_nil_of_le (le_of_eq hlenA), List.nil_append]
  · rw [List.length_append, List.length_replicate, hlenA, ← Nat.add_mul,
      Nat.add_sub_cancel' (min_le_left frameCount out.frames)]

/-- C7 witness: the empty output buffer asked for 441 frames at 8 channels
emits 441 × 8 = 3528 zero floats and returns `paContinue`. -/
theorem C7_callback_underflow_witness :
    ((output_callback 8 441 false false 0 0 0 0 0 0 [] ⟨[], 0⟩ ⟨[], 0⟩ 1 1 =
        output_callback 8 441 false false 0 0 0 0 0 0 [] ⟨[], 0⟩ ⟨[], 0⟩ 1 1) ∧
      (DataBuffer.mk [] 0).data.length = (DataBuffer.mk [] 0).frames * 8) ∧
    ((output_callback 8 441 false false 0 0 0 0 0 0 [] ⟨[], 0⟩ ⟨[], 0⟩ 1 1).dest =
        List.replicate 3528 0 ∧
      (output_callback 8 441 false false 0 0 0 0 0 0 [] ⟨[], 0⟩ ⟨[], 0⟩ 1 1).dest.drop
          (min 441 (0 : Nat) * 8) =
        List.replicate ((441 - min 441 (0 : Nat)) * 8) 0 ∧
      (output_callback 8 441 false false 0 0 0 0 0 0 [] ⟨[], 0⟩ ⟨[], 0⟩ 1 1).status =
        paContinue) :=
  ⟨⟨rfl, rfl⟩,
   rfl,
   (C7_callback_underflow 8 441 0 0 0 0 0 0 [] ⟨[], 0⟩ ⟨[], 0⟩ 1 1 _ rfl rfl).2.1,
   (C7_callback_underflow 8 441 0 0 0 0 0 0 [] ⟨[], 0⟩ ⟨[], 0⟩ 1 1 _ rfl rfl).2.2.2.2⟩

/-- C8: `resample_buffers` leaves both buffers unchanged when the input
buffer is empty or the output buffer is full; otherwise, under the
`src_process` contract (`inUsed ≤ input frames`, produced data of
`outProduced` frames), it grows the output buffer by exactly the produced
frames and compacts the input buffer by removing exactly its first
`inUsed` frames, the remainder shifting to the front. -/
theorem C8_resample_frame_effect (outputBufsize cc inUsed outProduced : Nat)
    (prod : List ℚ) (inp out : DataBuffer) (r : DataBuffer × DataBuffer)
    (hr : r = resample_buffers outputBufsize cc inUsed outProduced prod inp out) :
    (inp.frames = 0 → r = (inp, out)) ∧
    (out.frames = outputBufsize → r = (inp, out)) ∧
    (inp.frames ≠ 0 → out.frames ≠ outputBufsize →
      inUsed ≤ inp.frames → inp.data.length = inp.frames * cc →
      (r.2.frames = out.frames + outProduced ∧
       r.2.data = out.data ++ prod ∧
       r.1.frames = inp.frames - inUsed ∧
       inp.data = inp.data.take (inUsed * cc) ++ r.1.data ∧
       r.1.data.length = (inp.frames - inUsed) * cc)) := by
  subst hr
  refine ⟨?_, ?_, ?_⟩
  · intro h0
    unfold resample_buffers
    rw [if_pos h0]
  · intro hfull
    unfold resample_buffers
    by_cases h0 : inp.frames = 0
    · rw [if_pos h0]
    · rw [if_neg h0, if_pos hfull]
  · intro h0 hfull hle hlen
    unfold resample_buffers
    rw [if_neg h0, if_neg hfull]
    refine ⟨rfl, rfl, rfl, (List.take_append_drop (inUsed * cc) inp.data).symm, ?_⟩
    show (inp.data.drop (inUsed * cc)).length = (inp.frames - inUsed) * cc
    rw [List.length_drop, hlen, Nat.sub_mul]

/-- C8 witness: both a no-op case (empty input buffer) and a successful
resample consuming 1 of 2 input frames and producing 3 output frames at
2 channels. -/
theorem C8_resample_frame_effect_witness :
    (resample_buffers 10 2 1 3 (List.replicate 6 0) ⟨[], 0⟩ ⟨[5, 6], 1⟩ =
      (⟨[], 0⟩, ⟨[5, 6], 1⟩) ∧
     (resample_buffers 10 2 1 3 (List.replicate 6 0) ⟨[1, 2, 3, 4], 2⟩ ⟨[5, 6], 1⟩).2.frames =
       1 + 3 ∧
     (resample_buffers 10 2 1 3 (List.replicate 6 0) ⟨[1, 2, 3, 4], 2⟩ ⟨[5, 6], 1⟩).1.frames =
       2 - 1 ∧
     (resample_buffers 10 2 1 3 (List.replicate 6 0) ⟨[1, 2, 3, 4], 2⟩ ⟨[5, 6], 1⟩).1.data.length =
       (2 - 1) * 2) :=
  ⟨(C8_resample_frame_effect 10 2 1 3 (List.replicate 6 0) ⟨[], 0⟩ ⟨[5, 6], 1⟩ _ rfl).1 rfl,
   ((C8_resample_frame_effect 10 2 1 3 (List.replicate 6 0) ⟨[1, 2, 3, 4], 2⟩ ⟨[5, 6], 1⟩ _ rfl).2.2
      (by decide) (by decide) (by decide) rfl).1,
   ((C8_resample_frame_effect 10 2 1 3 (List.replicate 6 0) ⟨[1, 2, 3, 4], 2⟩ ⟨[5, 6], 1⟩ _ rfl).2.2
      (by decide) (by decide) (by decide) rfl).2.2.1,
   ((C8_resample_frame_effect 10 2 1 3 (List.replicate 6 0) ⟨[1, 2, 3, 4], 2⟩ ⟨[5, 6], 1⟩ _ rfl).2.2
      (by decide) (by decide) (by decide) rfl).2.2.2.2⟩

/-- C9: given that the blocking read returns at most the 45 requested
bytes, `unicorn_pull_sample` fails exactly when the read was short or
byte 0 ≠ 0xC0 or byte 1 ≠ 0x00; and two byte buffers that differ only at
the trailer offsets 43 and 44 give identical results, so the trailer
affects neither success nor any decoded value. -/
theorem C9_pull_failure_iff (r : ℤ) (b b' : Nat → Nat) (hr : r ≤ 45)
    (hb : ∀ i : Nat, i ≠ 43 → i ≠ 44 → b i = b' i) :
    (unicorn_pull_sample r b = none ↔ (r < 45 ∨ b 0 ≠ 0xC0 ∨ b 1 ≠ 0x00)) ∧
    unicorn_pull_sample r b = unicorn_pull_sample r b' := by
  constructor
  · unfold unicorn_pull_sample
    split_ifs with hc
    · simp only [true_iff]
      rcases hc with h | h
      · left; omega
      · right; exact h
    · push_neg at hc
      simp only [false_iff]
      push_neg
      exact ⟨by omega, hc.2.1, hc.2.2⟩
  · have h0 : b 0 = b' 0 := hb 0 (by omega) (by omega)
    have h1 : b 1 = b' 1 := hb 1 (by omega) (by omega)
    have hd : decode b = decode b' := decode_agree (fun i hi => hb i (by omega) (by omega))
    unfold unicorn_pull_sample
    rw [h0, h1, hd]

/-- C9 witness: a valid all-zero frame, with and without the nominal
`0x0D 0x0A` trailer. -/
theorem C9_pull_failure_iff_witness :
    ((45 : ℤ) ≤ 45 ∧
      (∀ i : Nat, i ≠ 43 → i ≠ 44 → frameZero i = frameZeroTrailer i)) ∧
    ((unicorn_pull_sample 45 frameZero = none ↔
        ((45 : ℤ) < 45 ∨ frameZero 0 ≠ 0xC0 ∨ frameZero 1 ≠ 0x00)) ∧
      unicorn_pull_sample 45 frameZero = unicorn_pull_sample 45 frameZeroTrailer) :=
  ⟨⟨le_refl 45, fun i h43 h44 => by simp [frameZero, frameZeroTrailer, h43, h44]⟩,
   C9_pull_failure_iff 45 frameZero frameZeroTrailer (le_refl 45)
     (fun i h43 h44 => by simp [frameZero, frameZeroTrailer, h43, h44])⟩

/-- C10: whenever `outputLimit ≥ 1` on entry (true throughout a session,
since it starts at 1 and only grows), every float stored into the input
buffer by the producer store loop — the loop shared verbatim by the priming
phase (lines 463-466) and the running phase (lines 508-511) — has absolute
value at most 1 exactly: the limit is first raised to at least `|x|` and
the stored value is `x` divided by that same raised limit. -/
theorem C10_stored_abs_le_one (limit : ℚ) (xs : List ℚ) (h : 1 ≤ limit) :
    ∀ y ∈ (store_channels limit xs).2, |y| ≤ 1 := by
  induction xs generalizing limit with
  | nil =>
    intro y hy
    simp [store_channels] at hy
  | cons x xs ih =>
    intro y hy
    simp only [store_channels, List.mem_cons] at hy
    rcases hy with hy | hy
    · subst hy
      have hl1 : (1 : ℚ) ≤ max limit |x| := le_trans h (le_max_left _ _)
      have hpos : (0 : ℚ) < max limit |x| := lt_of_lt_of_le one_pos hl1
      rw [abs_div, abs_of_pos hpos]
      exact (div_le_one hpos).mpr (le_trans (le_max_right limit |x|) (le_refl _))
    · exact ih (max limit |x|) (le_trans h (le_max_left _ _)) y hy

/-- C10 witness: storing the frame `[5, -3]` with `outputLimit = 1`. -/
theorem C10_stored_abs_le_one_witness :
    (1 : ℚ) ≤ 1 ∧ ∀ y ∈ (store_channels 1 [5, -3]).2, |y| ≤ 1 :=
  ⟨le_refl 1, C10_stored_abs_le_one 1 [5, -3] (le_refl 1)⟩
